import Mathlib

/-!
Shallow embedding of the pixelflut client (`src/main.rs`) and proofs about
its control-and-streaming core.

Machine-integer conventions: Rust `u16` values are modelled as `Nat` with
arithmetic reduced modulo `2^16 = 65536` where the source performs `u16`
addition/subtraction (Rust release-build wrapping semantics; a debug build
would panic at the same points, so every divergence shown below from the
ideal unbounded arithmetic is a real divergence in both build modes).
`u8` values are `Nat < 256`; the `as usize` cast truncates modulo `2^64`
(64-bit target). Fallible operations (Rust `expect` on `Option`/`Result`,
i.e. panics carrying a diagnostic) are modelled with `Except String`.
-/

/-- Rust `struct Coordinates { x: u16, y: u16, bounds: (u16, u16) }`
(`main.rs:13-18`). `bounds.fst` is the canvas width, `bounds.snd` the
height. -/
structure Coordinates where
  x : Nat
  y : Nat
  bounds : Nat × Nat
  deriving DecidableEq, Repr

/-- Embedding of `impl Add for Coordinates` (`main.rs:20-30`):
`x' = (self.x + other.x + self.bounds.0) % self.bounds.0` computed in `u16`,
so the intermediate sum wraps modulo `2^16` before the `% bounds` reduction.
(Rust would panic on `bounds = 0`; all theorems below assume positive
bounds.) -/
def Coordinates.add (a b : Coordinates) : Coordinates :=
  { x := (a.x + b.x + a.bounds.fst) % 65536 % a.bounds.fst
    y := (a.y + b.y + a.bounds.snd) % 65536 % a.bounds.snd
    bounds := a.bounds }

/-- Rust `struct Color { r: u8, g: u8, b: u8 }` (`main.rs:32-37`). -/
structure Color where
  r : Nat
  g : Nat
  b : Nat
  deriving DecidableEq, Repr

/-- An RGBA sample as produced by the image decoder (`image::Rgba<u8>`). -/
structure Rgba where
  r : Nat
  g : Nat
  b : Nat
  a : Nat
  deriving DecidableEq, Repr

/-- Embedding of `impl From<Rgba<u8>> for Color` (`main.rs:39-47`): keeps `r`,`g`,`b`,
drops the alpha channel. -/
def Color.ofRgba (c : Rgba) : Color :=
  { r := c.r, g := c.g, b := c.b }

/-- Rust `struct Pixel { point: Coordinates, rgb: Color }` (`main.rs:49-52`). -/
structure Pixel where
  point : Coordinates
  rgb : Color
  deriving DecidableEq, Repr

/-- One lowercase hexadecimal digit, as produced by Rust's `{:x}` formatting. -/
def hexDigit (n : Nat) : Char :=
  if n < 10 then Char.ofNat (48 + n) else Char.ofNat (87 + n)

/-- Rust `{:02x}` formatting of a `u8`: exactly two lowercase hex digits. -/
def hexByte (n : Nat) : String :=
  String.mk [hexDigit (n / 16), hexDigit (n % 16)]

/-- Embedding of `Pixel::write` (`main.rs:54-68`): emits
`PX {x} {y} {r:02x}{g:02x}{b:02x}\n` into the buffer. `Nat.repr` matches
Rust's decimal `Display` for unsigned integers. -/
def Pixel.write (p : Pixel) : String :=
  "PX " ++ Nat.repr p.point.x ++ " " ++ Nat.repr p.point.y ++ " " ++
    hexByte p.rgb.r ++ hexByte p.rgb.g ++ hexByte p.rgb.b ++ "\n"

/-- Rust `enum Direction` (`main.rs:82-87`). -/
inductive Direction where
  | Right
  | Left
  | Up
  | Down
  deriving DecidableEq, Repr

/-- An `image::RgbaImage` frame: a width×height grid of RGBA samples.
`pix x y` is the sample at column `x`, row `y`. -/
structure RgbaImage where
  width : Nat
  height : Nat
  pix : Nat → Nat → Rgba

/-- Embedding of `image::RgbaImage::enumerate_pixels`: yields `(x, y, pixel)` in row-major
order (`y` outer, `x` inner), as iterated by `write_frame_to_stream`
(`main.rs:95`). -/
def enumeratePixels (im : RgbaImage) : List (Nat × Nat × Rgba) :=
  (List.range im.height).flatMap fun y =>
    (List.range im.width).map fun x => (x, y, im.pix x y)

/-- Embedding of `write_frame_to_stream` (`main.rs:89-107`): for every enumerated pixel,
build `Coordinates { x, y, bounds: canvas_size } + position` and serialize
with `Pixel::write`. Returns the list of emitted lines. -/
def write_frame_to_stream (frame : RgbaImage) (position : Coordinates)
    (canvas_size : Nat × Nat) : List String :=
  (enumeratePixels frame).map fun t =>
    Pixel.write
      { point := Coordinates.add { x := t.fst, y := t.snd.fst, bounds := canvas_size } position
        rgb := Color.ofRgba t.snd.snd }

/-- Splits a character list at Unicode whitespace, discarding empty pieces —
the behaviour of Rust's `str::split_whitespace`. `acc` holds the current
token reversed. -/
def splitWhitespaceAux : List Char → List Char → List (List Char)
  | [], acc => if acc.isEmpty then [] else [acc.reverse]
  | c :: cs, acc =>
    if c.isWhitespace then
      if acc.isEmpty then splitWhitespaceAux cs []
      else acc.reverse :: splitWhitespaceAux cs []
    else splitWhitespaceAux cs (c :: acc)

/-- Rust `str::split_whitespace` over a whole string. -/
def splitWhitespace (s : String) : List String :=
  (splitWhitespaceAux s.toList []).map String.mk

/-- Decimal digit accumulation for `u16::from_str`; `none` on any
non-digit character. -/
def parseDigits : List Char → Nat → Option Nat
  | [], acc => some acc
  | c :: cs, acc =>
    if c.isDigit then parseDigits cs (acc * 10 + (c.toNat - 48))
    else none

/-- Rust `str::parse::<u16>()`: optional leading `+`, then one or more
decimal digits, value at most `65535`; anything else is an error (`none`). -/
def parseU16 (s : String) : Option Nat :=
  let cs := match s.toList with
    | '+' :: rest => rest
    | cs => cs
  if cs.isEmpty then none
  else
    match parseDigits cs 0 with
    | none => none
    | some n => if n ≤ 65535 then some n else none

/-- Embedding of `get_canvas_size` (`main.rs:109-138`), restricted to its pure parsing of
the one response line: token 0 must exist (command echo, ignored), tokens 1
and 2 must parse as `u16` width and height. Each Rust `expect` (a panic
carrying a diagnostic, i.e. a fatal startup error) is modelled as
`Except.error` with the same message. -/
def get_canvas_size (response : String) : Except String (Nat × Nat) :=
  let parts := splitWhitespace response
  match parts.get? 0 with
  | none => Except.error "Failed parsing of size response: Response is empty"
  | some _ =>
    match (parts.get? 1).bind parseU16 with
    | none => Except.error "Failed parsing of size response"
    | some width =>
      match (parts.get? 2).bind parseU16 with
      | none => Except.error "Failed parsing of size response"
      | some height => Except.ok (width, height)

/-- The position update in the render loop (`main.rs:311-328`):
`x += 1` / `x -= 1` / `y -= 1` / `y += 1` in `u16` arithmetic. There is no
reduction modulo the canvas bounds here; wrapping is modulo `2^16`
(subtraction of 1 is addition of `65535` modulo `65536`). -/
def advance (d : Direction) (p : Coordinates) : Coordinates :=
  match d with
  | Direction.Right => { p with x := (p.x + 1) % 65536 }
  | Direction.Left => { p with x := (p.x + 65535) % 65536 }
  | Direction.Up => { p with y := (p.y + 65535) % 65536 }
  | Direction.Down => { p with y := (p.y + 1) % 65536 }

/-- Embedding of `direction_rx.try_recv()` (`main.rs:307`): the mpsc channel is a FIFO
queue; a non-blocking receive takes the oldest element if any. -/
def try_recv : List Direction → Option (Direction × List Direction)
  | [] => none
  | d :: rest => some (d, rest)

/-- The direction poll at the top of each loop iteration (`main.rs:305-309`):
`if let Ok(new_direction) = direction_rx.try_recv() { direction = new_direction }`.
Returns the latched direction and the remaining queue. -/
def pollDirection (facing : Direction) (q : List Direction) :
    Direction × List Direction :=
  match try_recv q with
  | some (d, rest) => (d, rest)
  | none => (facing, q)

/-- State owned by the render loop: `position`, the latched `direction`, and
the pending contents of the direction channel. -/
structure LoopState where
  position : Coordinates
  direction : Direction
  queue : List Direction
  deriving DecidableEq, Repr

/-- One iteration of the render loop's control part (`main.rs:305-328`):
poll the channel once, then advance the position one unit in the latched
direction. (The frame writes that follow do not touch this state.) -/
def loopStep (s : LoopState) : LoopState :=
  let pd := pollDirection s.direction s.queue
  { position := advance pd.fst s.position
    direction := pd.fst
    queue := pd.snd }

/-- States reachable by the render loop from `init`: loop iterations
interleaved with producer threads appending directions to the channel. -/
inductive Reachable (init : LoopState) : LoopState → Prop
  | refl : Reachable init init
  | step {s : LoopState} : Reachable init s → Reachable init (loopStep s)
  | enqueue {s : LoopState} (d : Direction) :
      Reachable init s → Reachable init { s with queue := s.queue ++ [d] }

/-- Embedding of `let frame_duration = 200;` (`main.rs:294`), in milliseconds. -/
def frame_duration : Nat := 200

/-- Frame selection (`main.rs:337-339`): `elapsed_time` is the elapsed
milliseconds as `u128` (exact for every representable `Duration`), and
`(elapsed_time / frame_duration) as usize % len` truncates the quotient to
`usize` (64-bit) before the modulo. -/
def frame_idx (t n : Nat) : Nat :=
  (t / frame_duration) % 2 ^ 64 % n

/-- Embedding of `image::imageops::flip_horizontal` (used at `main.rs:283`): mirror
across the vertical axis, `out(x, y) = in(width - 1 - x, y)`. -/
def flip_horizontal (im : RgbaImage) : RgbaImage :=
  { width := im.width, height := im.height
    pix := fun x y => im.pix (im.width - 1 - x) y }

/-- Embedding of `image::imageops::rotate90` (used at `main.rs:284`): rotate 90° clockwise;
the output is `height × width` and `out(x, y) = in(y, height - 1 - x)`. -/
def rotate90 (im : RgbaImage) : RgbaImage :=
  { width := im.height, height := im.width
    pix := fun x y => im.pix y (im.height - 1 - x) }

/-- Embedding of `image::imageops::flip_vertical` (used at `main.rs:285`): mirror across
the horizontal axis, `out(x, y) = in(x, height - 1 - y)`. -/
def flip_vertical (im : RgbaImage) : RgbaImage :=
  { width := im.width, height := im.height
    pix := fun x y => im.pix x (im.height - 1 - y) }

/-- Embedding of `let left_frames = right_frames.iter().map(flip_horizontal)` (`main.rs:283`). -/
def left_frames (rf : List RgbaImage) : List RgbaImage :=
  rf.map flip_horizontal

/-- Embedding of `let down_frames = right_frames.iter().map(rotate90)` (`main.rs:284`). -/
def down_frames (rf : List RgbaImage) : List RgbaImage :=
  rf.map rotate90

/-- Embedding of `let up_frames = down_frames.iter().map(flip_vertical)` (`main.rs:285`). -/
def up_frames (rf : List RgbaImage) : List RgbaImage :=
  (down_frames rf).map flip_vertical

/-- Length of a row-major enumeration grid: `h` rows of `w` entries. -/
lemma length_range_grid {α : Type} (w h : Nat) (f : Nat → Nat → α) :
    ((List.range h).flatMap fun y => (List.range w).map (f y)).length = h * w := by
  induction h with
  | zero => simp
  | succ n ih =>
    simp [List.range_succ, List.flatMap_append, ih, Nat.succ_mul]

/-- Entry `i` of a row-major enumeration grid is produced by row `i / w`,
column `i % w`. -/
lemma getElem?_range_grid {α : Type} (w : Nat) (f : Nat → Nat → α) :
    ∀ h i : Nat, i < h * w →
      ((List.range h).flatMap fun y => (List.range w).map (f y))[i]? = some (f (i / w) (i % w)) := by
  intro h
  induction h with
  | zero => intro i hi; omega
  | succ n ih =>
    intro i hi
    have hw : 0 < w := by
      rcases Nat.eq_zero_or_pos w with hw0 | hw0
      · subst hw0; omega
      · exact hw0
    have hlen : ((List.range n).flatMap fun y => (List.range w).map (f y)).length = n * w :=
      length_range_grid w n f
    rw [List.range_succ, List.flatMap_append]
    rcases Nat.lt_or_ge i (n * w) with hlt | hge
    · rw [List.getElem?_append_left (by rw [hlen]; exact hlt)]
      exact ih i hlt
    · have hi' : i < n * w + w := by
        rw [Nat.add_mul, Nat.one_mul] at hi
        exact hi
      have hsub : i - n * w < w := by omega
      have hrep : i = (i - n * w) + n * w := by omega
      rw [List.getElem?_append_right (by rw [hlen]; exact hge), hlen]
      have hdiv : i / w = n := by
        conv_lhs => rw [hrep]
        rw [Nat.add_mul_div_right _ _ hw, Nat.div_eq_of_lt hsub, Nat.zero_add]
      have hmod : i % w = i - n * w := by
        conv_lhs => rw [hrep]
        rw [Nat.add_mul_mod_self_right, Nat.mod_eq_of_lt hsub]
      simp [List.getElem?_map, List.getElem?_range hsub, hdiv, hmod]

/-- Every iterate of the loop body is a reachable state. -/
lemma reachable_iterate (init : LoopState) (n : Nat) :
    Reachable init (loopStep^[n] init) := by
  induction n with
  | zero => exact Reachable.refl
  | succ k ih =>
    rw [Function.iterate_succ_apply']
    exact Reachable.step ih

/-- The `u16` computation `((x1 + x2 + w) % 2^16) % w` is associative as a
binary operation provided no intermediate sum reaches `2^16`, which holds
whenever all operands are below `w` and `3 * w ≤ 2^16`. -/
lemma wrap_assoc (w x1 x2 x3 : Nat) (h1 : x1 < w) (h2 : x2 < w) (h3 : x3 < w)
    (hw : 3 * w ≤ 65536) :
    ((x1 + x2 + w) % 65536 % w + x3 + w) % 65536 % w
      = (x1 + (x2 + x3 + w) % 65536 % w + w) % 65536 % w := by
  have hw0 : 0 < w := by omega
  have e1 : (x1 + x2 + w) % 65536 = x1 + x2 + w := Nat.mod_eq_of_lt (by omega)
  have e2 : (x2 + x3 + w) % 65536 = x2 + x3 + w := Nat.mod_eq_of_lt (by omega)
  rw [e1, e2, Nat.add_mod_right, Nat.add_mod_right]
  have r1lt : (x1 + x2) % w < w := Nat.mod_lt _ hw0
  have r2lt : (x2 + x3) % w < w := Nat.mod_lt _ hw0
  have e3 : ((x1 + x2) % w + x3 + w) % 65536 = (x1 + x2) % w + x3 + w := by
    apply Nat.mod_eq_of_lt
    generalize (x1 + x2) % w = r at r1lt
    omega
  have e4 : (x1 + (x2 + x3) % w + w) % 65536 = x1 + (x2 + x3) % w + w := by
    apply Nat.mod_eq_of_lt
    generalize (x2 + x3) % w = r at r2lt
    omega
  rw [e3, e4, Nat.add_mod_right, Nat.add_mod_right, Nat.mod_add_mod,
    Nat.add_mod_mod, Nat.add_assoc]

deriving instance DecidableEq for Except

set_option maxRecDepth 40000 in
/-- C1 counterexample: starting at `(0,0)` on a `100×100` canvas facing
`Right` with an empty direction queue, 100 iterations of the render loop do
NOT return the position to `(0,0)`: the update `position.x += 1` performs
plain `u16` arithmetic with no reduction modulo the canvas width, so the
position reaches `x = 100`. -/
theorem C1_counterexample :
    (loopStep^[100] ⟨⟨0, 0, (100, 100)⟩, Direction.Right, []⟩).position
      ≠ (⟨0, 0, (100, 100)⟩ : Coordinates) ∧
    (loopStep^[100] ⟨⟨0, 0, (100, 100)⟩, Direction.Right, []⟩).position.x = 100 := by
  constructor
  · decide
  · decide

set_option maxRecDepth 4000 in
/-- C1 amended: in every iteration, after the direction poll (here with an
empty queue, so the latched direction stays), the position is advanced by
exactly one unit in the latched facing direction using `u16` wraparound
arithmetic modulo `2^16` — not modulo the canvas size. From `(0,0)` on a
`100×100` canvas facing `Right`, one tick gives `(1,0)` and 100 ticks give
`(100,0)`, not `(0,0)`. -/
theorem C1_amended_movement :
    (∀ s : LoopState, s.queue = [] →
      loopStep s = { s with position := advance s.direction s.position }) ∧
    (∀ p : Coordinates,
      advance Direction.Right p = { p with x := (p.x + 1) % 65536 } ∧
      advance Direction.Left p = { p with x := (p.x + 65535) % 65536 } ∧
      advance Direction.Up p = { p with y := (p.y + 65535) % 65536 } ∧
      advance Direction.Down p = { p with y := (p.y + 1) % 65536 }) ∧
    (∀ (p : Coordinates) (d : Direction), (advance d p).bounds = p.bounds) ∧
    (loopStep^[1] ⟨⟨0, 0, (100, 100)⟩, Direction.Right, []⟩).position
      = (⟨1, 0, (100, 100)⟩ : Coordinates) ∧
    (loopStep^[100] ⟨⟨0, 0, (100, 100)⟩, Direction.Right, []⟩).position
      = (⟨100, 0, (100, 100)⟩ : Coordinates) := by
  refine ⟨?_, ?_, ?_, by decide, by decide⟩
  · intro s h
    obtain ⟨pos, dir, q⟩ := s
    have hq : q = [] := h
    subst hq
    rfl
  · intro p
    refine ⟨?_, ?_, ?_, ?_⟩ <;> simp [advance]
  · intro p d
    cases d <;> simp [advance]

/-- C1 witness: the amended per-tick law applied at a concrete state with an
empty queue. -/
theorem C1_amended_witness :
    loopStep ⟨⟨5, 6, (10, 10)⟩, Direction.Down, []⟩
      = { position := advance Direction.Down ⟨5, 6, (10, 10)⟩
          direction := Direction.Down
          queue := [] } :=
  C1_amended_movement.1 ⟨⟨5, 6, (10, 10)⟩, Direction.Down, []⟩ rfl

set_option maxRecDepth 40000 in
/-- C2 counterexample: the state after 100 ticks from `(0,0)` facing `Right`
on a `100×100` canvas is reachable, yet its position has `x = 100`,
violating `x < width`. The loop's `position` is not kept within canvas
bounds. -/
theorem C2_counterexample :
    Reachable ⟨⟨0, 0, (100, 100)⟩, Direction.Right, []⟩
      (loopStep^[100] ⟨⟨0, 0, (100, 100)⟩, Direction.Right, []⟩) ∧
    ¬ ((loopStep^[100] ⟨⟨0, 0, (100, 100)⟩, Direction.Right, []⟩).position.x
        < (loopStep^[100] ⟨⟨0, 0, (100, 100)⟩, Direction.Right, []⟩).position.bounds.fst) :=
  ⟨reachable_iterate _ 100, by decide⟩

/-- C2 amended: the in-bounds invariant `0 ≤ x < width ∧ 0 ≤ y < height`
does not hold for the loop's `position` (see the counterexample); it holds
for the coordinates produced by the wraparound addition
`Coordinates.add` — the operation that places every serialized pixel on the
canvas — whenever the bounds are positive. -/
theorem C2_amended_bounds (a b : Coordinates)
    (hw : 0 < a.bounds.fst) (hh : 0 < a.bounds.snd) :
    (a.add b).x < a.bounds.fst ∧ (a.add b).y < a.bounds.snd ∧
    (a.add b).bounds = a.bounds :=
  ⟨Nat.mod_lt _ hw, Nat.mod_lt _ hh, rfl⟩

/-- C2 witness: the amended bounds law at a concrete pair of coordinates. -/
theorem C2_amended_witness :
    (Coordinates.add ⟨7, 8, (10, 20)⟩ ⟨5, 15, (10, 20)⟩).x < 10 ∧
    (Coordinates.add ⟨7, 8, (10, 20)⟩ ⟨5, 15, (10, 20)⟩).y < 20 ∧
    (Coordinates.add ⟨7, 8, (10, 20)⟩ ⟨5, 15, (10, 20)⟩).bounds = (10, 20) :=
  C2_amended_bounds ⟨7, 8, (10, 20)⟩ ⟨5, 15, (10, 20)⟩ (by decide) (by decide)

set_option maxRecDepth 40000 in
/-- C3: parsing the canvas-size response maps `"SIZE 800 600\n"` to
`(800, 600)`, and the one-token response `"SIZE\n"` fails with the reported
diagnostic `"Failed parsing of size response"` (in the source this is the
`expect` message on the missing width token: a fatal startup error carrying
that diagnostic, modelled as `Except.error`). -/
theorem C3_size_parse :
    get_canvas_size "SIZE 800 600\n" = Except.ok (800, 600) ∧
    get_canvas_size "SIZE\n" = Except.error "Failed parsing of size response" := by
  constructor
  · decide
  · decide

/-- C4 counterexample: for coordinates within the invariant (`x < width`)
but with a large canvas width, the `u16` intermediate sum
`x1 + x2 + width` wraps modulo `2^16`, so `add` does not return
`(x1 + x2 + width) mod width`: with `x1 = x2 = 39999`, `width = 40000`,
the code yields `14462` where the formula gives `39998`. -/
theorem C4_counterexample :
    39999 < 40000 ∧
    (Coordinates.add ⟨39999, 0, (40000, 1)⟩ ⟨39999, 0, (40000, 1)⟩).x
      ≠ (39999 + 39999 + 40000) % 40000 := by
  constructor
  · decide
  · decide

/-- C4 amended: whenever the intermediate sums fit in `u16`
(`a.x + b.x + width < 2^16` and `a.y + b.y + height < 2^16`) and the shared
bounds are positive, `add` returns a coordinate with `a`'s bounds whose
components are `(a.x + b.x + width) mod width` and
`(a.y + b.y + height) mod height`, hence within bounds. Without the
no-overflow hypotheses the formula fails (see the counterexample). -/
theorem C4_amended_add (a b : Coordinates) (hb : a.bounds = b.bounds)
    (hw : 0 < a.bounds.fst) (hh : 0 < a.bounds.snd)
    (hx : a.x + b.x + a.bounds.fst < 65536)
    (hy : a.y + b.y + a.bounds.snd < 65536) :
    (a.add b).bounds = a.bounds ∧
    (a.add b).x = (a.x + b.x + a.bounds.fst) % a.bounds.fst ∧
    (a.add b).y = (a.y + b.y + a.bounds.snd) % a.bounds.snd ∧
    (a.add b).x < a.bounds.fst ∧ (a.add b).y < a.bounds.snd := by
  refine ⟨rfl, ?_, ?_, ?_, ?_⟩
  · show (a.x + b.x + a.bounds.fst) % 65536 % a.bounds.fst = _
    rw [Nat.mod_eq_of_lt hx]
  · show (a.y + b.y + a.bounds.snd) % 65536 % a.bounds.snd = _
    rw [Nat.mod_eq_of_lt hy]
  · exact Nat.mod_lt _ hw
  · exact Nat.mod_lt _ hh

/-- C4 witness: the amended addition law at a concrete in-range pair. -/
theorem C4_amended_witness :
    (Coordinates.add ⟨1, 2, (10, 10)⟩ ⟨3, 4, (10, 10)⟩).bounds = (10, 10) ∧
    (Coordinates.add ⟨1, 2, (10, 10)⟩ ⟨3, 4, (10, 10)⟩).x = (1 + 3 + 10) % 10 ∧
    (Coordinates.add ⟨1, 2, (10, 10)⟩ ⟨3, 4, (10, 10)⟩).y = (2 + 4 + 10) % 10 ∧
    (Coordinates.add ⟨1, 2, (10, 10)⟩ ⟨3, 4, (10, 10)⟩).x < 10 ∧
    (Coordinates.add ⟨1, 2, (10, 10)⟩ ⟨3, 4, (10, 10)⟩).y < 10 :=
  C4_amended_add ⟨1, 2, (10, 10)⟩ ⟨3, 4, (10, 10)⟩ rfl (by decide) (by decide)
    (by decide) (by decide)

/-- C5 counterexample: wraparound addition as implemented is NOT associative
for all coordinates sharing the same bounds: with width `40000` and
`a = b = (39999, 0)`, `c = (0, 0)`, the `u16` overflow strikes once on the
left-associated side and twice on the right-associated side, giving `x`
components `14462` and `28926` respectively. -/
theorem C5_counterexample :
    Coordinates.add (Coordinates.add ⟨39999, 0, (40000, 1)⟩ ⟨39999, 0, (40000, 1)⟩)
        ⟨0, 0, (40000, 1)⟩
      ≠ Coordinates.add ⟨39999, 0, (40000, 1)⟩
          (Coordinates.add ⟨39999, 0, (40000, 1)⟩ ⟨0, 0, (40000, 1)⟩) := by
  decide

/-- C5 amended: associativity holds under fixed shared bounds provided all
operands are within bounds and the bounds are small enough that no
intermediate `u16` sum overflows (`3 * width ≤ 2^16` and
`3 * height ≤ 2^16`); for larger bounds it fails (see the
counterexample). -/
theorem C5_amended_assoc (a b c : Coordinates)
    (hab : a.bounds = b.bounds) (hac : a.bounds = c.bounds)
    (hax : a.x < a.bounds.fst) (hbx : b.x < a.bounds.fst) (hcx : c.x < a.bounds.fst)
    (hay : a.y < a.bounds.snd) (hby : b.y < a.bounds.snd) (hcy : c.y < a.bounds.snd)
    (hw : 3 * a.bounds.fst ≤ 65536) (hh : 3 * a.bounds.snd ≤ 65536) :
    (a.add b).add c = a.add (b.add c) := by
  obtain ⟨x1, y1, bd⟩ := a
  obtain ⟨x2, y2, bd2⟩ := b
  obtain ⟨x3, y3, bd3⟩ := c
  have hab' : bd = bd2 := hab
  have hac' : bd = bd3 := hac
  subst hab'
  subst hac'
  obtain ⟨w, h⟩ := bd
  have hx := wrap_assoc w x1 x2 x3 hax hbx hcx hw
  have hy := wrap_assoc h y1 y2 y3 hay hby hcy hh
  simp only [Coordinates.add]
  rw [Coordinates.mk.injEq]
  exact ⟨hx, hy, rfl⟩

/-- C5 witness: associativity at a concrete in-range triple. -/
theorem C5_amended_witness :
    Coordinates.add (Coordinates.add ⟨1, 2, (10, 7)⟩ ⟨3, 4, (10, 7)⟩) ⟨5, 6, (10, 7)⟩
      = Coordinates.add ⟨1, 2, (10, 7)⟩ (Coordinates.add ⟨3, 4, (10, 7)⟩ ⟨5, 6, (10, 7)⟩) :=
  C5_amended_assoc ⟨1, 2, (10, 7)⟩ ⟨3, 4, (10, 7)⟩ ⟨5, 6, (10, 7)⟩ rfl rfl
    (by decide) (by decide) (by decide) (by decide) (by decide) (by decide)
    (by decide) (by decide)

/-- C6 counterexample: the selected frame index is NOT `floor(t/D) mod N`
for every elapsed time `t ≥ 0`: the `as usize` cast truncates the `u128`
quotient modulo `2^64`, so at `t = 200 * 2^64` ms with `N = 3` the code
selects frame `0` while the claimed formula gives `1`. -/
theorem C6_counterexample :
    frame_idx (200 * 2 ^ 64) 3 = 0 ∧ (200 * 2 ^ 64 / frame_duration) % 3 = 1 := by
  constructor
  · decide
  · decide

/-- C6 amended: the frame index equals `floor(t / frame_duration) mod N`
for every elapsed time `t` whose quotient fits in `usize`
(`floor(t/D) < 2^64`, true of any physically realizable elapsed time); it
is a function of `t` and the sequence length alone — `frame_idx` takes no
other input — so it is independent of how many frames have been
transmitted. -/
theorem C6_amended_frame_index (t n : Nat) (h : t / frame_duration < 2 ^ 64) :
    frame_idx t n = (t / frame_duration) % n := by
  unfold frame_idx
  rw [Nat.mod_eq_of_lt h]

/-- C6 witness: the amended frame-index law at `t = 1000` ms, `N = 4`. -/
theorem C6_amended_witness :
    frame_idx 1000 4 = (1000 / frame_duration) % 4 ∧ frame_idx 1000 4 = 1 :=
  ⟨C6_amended_frame_index 1000 4 (by decide), by decide⟩

set_option maxRecDepth 40000 in
/-- C7: serializing a pixel emits exactly `PX <x> <y> <rrggbb>\n` — decimal
coordinates, six lowercase hex digits, alpha never transmitted; a white
pixel at `(3,4)` gives exactly `"PX 3 4 ffffff\n"`; a `W×H` frame emits
exactly `W*H` lines, one per pixel, and line `i` is the pixel at column
`i mod W`, row `i div W` (row-major order). -/
theorem C7_serialization :
    Pixel.write ⟨⟨3, 4, (800, 600)⟩, ⟨255, 255, 255⟩⟩ = "PX 3 4 ffffff\n" ∧
    (∀ p : Pixel, Pixel.write p
      = "PX " ++ Nat.repr p.point.x ++ " " ++ Nat.repr p.point.y ++ " " ++
          hexByte p.rgb.r ++ hexByte p.rgb.g ++ hexByte p.rgb.b ++ "\n") ∧
    (∀ n : Nat, n < 256 → (hexByte n).length = 2 ∧
      ((hexByte n).data.all fun c => c.isDigit || ('a' ≤ c && c ≤ 'f')) = true) ∧
    (∀ (frame : RgbaImage) (pos : Coordinates) (cs : Nat × Nat),
      (write_frame_to_stream frame pos cs).length = frame.width * frame.height) ∧
    (∀ (frame : RgbaImage) (pos : Coordinates) (cs : Nat × Nat) (i : Nat),
      i < frame.height * frame.width →
      (write_frame_to_stream frame pos cs)[i]?
        = some (Pixel.write
            { point := Coordinates.add ⟨i % frame.width, i / frame.width, cs⟩ pos
              rgb := Color.ofRgba (frame.pix (i % frame.width) (i / frame.width)) })) ∧
    (∀ (pt : Coordinates) (c₁ c₂ : Rgba), c₁.r = c₂.r → c₁.g = c₂.g → c₁.b = c₂.b →
      Pixel.write ⟨pt, Color.ofRgba c₁⟩ = Pixel.write ⟨pt, Color.ofRgba c₂⟩) := by
  refine ⟨by decide, fun p => rfl, by decide, ?_, ?_, ?_⟩
  · intro frame pos cs
    unfold write_frame_to_stream enumeratePixels
    rw [List.length_map,
      length_range_grid frame.width frame.height (fun y x => (x, y, frame.pix x y)),
      Nat.mul_comm]
  · intro frame pos cs i hi
    have h := getElem?_range_grid frame.width
      (fun y x => (x, y, frame.pix x y)) frame.height i hi
    unfold write_frame_to_stream enumeratePixels
    rw [List.getElem?_map]
    simp only [] at h
    rw [h]
    rfl
  · intro pt c₁ c₂ h1 h2 h3
    simp [Pixel.write, Color.ofRgba, h1, h2, h3]

/-- C7 witness: the hex-format law at `n = 171`, the row-major indexing law
at a concrete `1×1` frame, and alpha-independence at two RGBA samples that
differ only in alpha. -/
theorem C7_witness :
    ((hexByte 171).length = 2 ∧
      ((hexByte 171).data.all fun c => c.isDigit || ('a' ≤ c && c ≤ 'f')) = true) ∧
    (write_frame_to_stream ⟨1, 1, fun _ _ => ⟨9, 8, 7, 6⟩⟩ ⟨3, 4, (800, 600)⟩ (800, 600))[0]?
      = some (Pixel.write
          { point := Coordinates.add ⟨0, 0, (800, 600)⟩ ⟨3, 4, (800, 600)⟩
            rgb := Color.ofRgba ⟨9, 8, 7, 6⟩ }) ∧
    Pixel.write ⟨⟨1, 1, (800, 600)⟩, Color.ofRgba ⟨9, 8, 7, 6⟩⟩
      = Pixel.write ⟨⟨1, 1, (800, 600)⟩, Color.ofRgba ⟨9, 8, 7, 0⟩⟩ :=
  ⟨C7_serialization.2.2.1 171 (by decide),
   C7_serialization.2.2.2.2.1 ⟨1, 1, fun _ _ => ⟨9, 8, 7, 6⟩⟩ ⟨3, 4, (800, 600)⟩
     (800, 600) 0 (by decide),
   C7_serialization.2.2.2.2.2 ⟨1, 1, (800, 600)⟩ ⟨9, 8, 7, 6⟩ ⟨9, 8, 7, 0⟩ rfl rfl rfl⟩

/-- C8: the render loop drains at most one queued direction per tick, oldest
first, via the single non-blocking receive; an empty queue leaves the
latched direction in effect; and after sending `Up` then `Left`, the first
poll latches `Up` (leaving `Left` queued) and only the next poll latches
`Left`. -/
theorem C8_latching :
    (∀ f : Direction, pollDirection f [] = (f, [])) ∧
    (∀ (f d : Direction) (rest : List Direction), pollDirection f (d :: rest) = (d, rest)) ∧
    (loopStep ⟨⟨0, 0, (100, 100)⟩, Direction.Right,
        [Direction.Up, Direction.Left]⟩).direction = Direction.Up ∧
    (loopStep ⟨⟨0, 0, (100, 100)⟩, Direction.Right,
        [Direction.Up, Direction.Left]⟩).queue = [Direction.Left] ∧
    (loopStep (loopStep ⟨⟨0, 0, (100, 100)⟩, Direction.Right,
        [Direction.Up, Direction.Left]⟩)).direction = Direction.Left ∧
    (loopStep (loopStep ⟨⟨0, 0, (100, 100)⟩, Direction.Right,
        [Direction.Up, Direction.Left]⟩)).queue = [] :=
  ⟨fun f => rfl, fun f d rest => rfl, by decide, by decide, by decide, by decide⟩

/-- C9: for every frame index `i`, the `left` sequence's frame `i` is the
horizontal mirror of the `right` sequence's frame `i`, the `down` sequence's
frame `i` is the `right` sequence's frame `i` rotated 90° (clockwise), and
the `up` sequence's frame `i` is the vertical mirror of the `down`
sequence's frame `i`; the second group spells out the three transforms
pixel for pixel. -/
theorem C9_frame_derivation :
    (∀ (rf : List RgbaImage) (i : Nat),
      (left_frames rf)[i]? = (rf[i]?).map flip_horizontal ∧
      (down_frames rf)[i]? = (rf[i]?).map rotate90 ∧
      (up_frames rf)[i]? = ((down_frames rf)[i]?).map flip_vertical) ∧
    (∀ (im : RgbaImage) (x y : Nat),
      (flip_horizontal im).pix x y = im.pix (im.width - 1 - x) y ∧
      (rotate90 im).pix x y = im.pix y (im.height - 1 - x) ∧
      (flip_vertical im).pix x y = im.pix x (im.height - 1 - y)) := by
  constructor
  · intro rf i
    refine ⟨?_, ?_, ?_⟩ <;>
      simp [left_frames, down_frames, up_frames, List.getElem?_map]
  · intro im x y
    exact ⟨rfl, rfl, rfl⟩

/-- C10: the `u16` intermediate sum of `Coordinates.add` can overflow for
inputs within the in-bounds invariant once the width reaches `2^15`-scale
values: with `x1 = x2 = 49999` under width `50000`, the sum
`x1 + x2 + width = 149998` exceeds `2^16`, and the computed component
differs from the specified `(x1 + x2 + width) mod width`. -/
theorem C10_add_overflow :
    49999 < 50000 ∧ 2 ^ 15 ≤ 50000 ∧ 65536 ≤ 49999 + 49999 + 50000 ∧
    (Coordinates.add ⟨49999, 0, (50000, 1)⟩ ⟨49999, 0, (50000, 1)⟩).x
      ≠ (49999 + 49999 + 50000) % 50000 :=
  ⟨by decide, by decide, by decide, by decide⟩
